import Mathlib

/-!
Verification development for the transform-and-hierarchy core of a 3D scene
graph (`src/core/object3d.rs`): a spatial node (`Object3D`) with local TRS
state, cached matrices, and parent/child links held through shared handles.

The node code is embedded directly from `object3d.rs`.  The transform math
library it consumes (`Vector3`, `Quaternion`, `Matrix4`, `Matrix3`, `Euler`,
`Layers`) is not part of the sources; its value types and the kernels whose
formulas the specification fixes (vector add/scale/copy, quaternion multiply,
vector-by-quaternion and vector-by-matrix application, 4x4 multiply /
determinant / inverse) are modelled here from the specification over exact
rationals, and the kernels the specification leaves to the library
(axis-angle / euler / rotation-matrix to quaternion, TRS decomposition,
look-at construction) are parameters gathered in `MathExt`.
-/

namespace ThreeRs

/-- Modelled from the spec: the math library's 3-component vector value type
(`position`, `scale`, `up`, translation axes), with exact rational scalars. -/
structure Vector3 where
  x : ℚ
  y : ℚ
  z : ℚ
deriving DecidableEq

/-- Modelled from the spec: `Vector3::new()` is the zero vector. -/
def Vector3.new : Vector3 := ⟨0, 0, 0⟩

/-- Modelled from the spec: `v.copy(a)` overwrites `v` with `a`; in the
functional embedding the result is simply `a`. -/
def Vector3.copy (_v : Vector3) (a : Vector3) : Vector3 := a

/-- Modelled from the spec: componentwise vector addition (`v.add(a)`). -/
def Vector3.add (v a : Vector3) : Vector3 := ⟨v.x + a.x, v.y + a.y, v.z + a.z⟩

/-- Modelled from the spec: scalar multiplication (`v.multiply_scalar(s)`). -/
def Vector3.multiply_scalar (v : Vector3) (s : ℚ) : Vector3 :=
  ⟨v.x * s, v.y * s, v.z * s⟩

/-- Modelled from the spec: the math library's quaternion value type; the
node's `orientation` is stored canonically in this form. -/
structure Quaternion where
  x : ℚ
  y : ℚ
  z : ℚ
  w : ℚ
deriving DecidableEq

/-- Modelled from the spec: `Quaternion::new()` is the identity quaternion
(a node is created with identity orientation). -/
def Quaternion.new : Quaternion := ⟨0, 0, 0, 1⟩

/-- Modelled from the spec: `q.copy(p)` overwrites `q` with `p`. -/
def Quaternion.copy (_q : Quaternion) (p : Quaternion) : Quaternion := p

/-- Modelled from the spec: quaternion multiplication, `q.multiply(p) = q * p`
(Hamilton product, in the component form the three.js-style library uses). -/
def Quaternion.multiply (q p : Quaternion) : Quaternion :=
  ⟨ q.x * p.w + q.w * p.x + q.y * p.z - q.z * p.y,
    q.y * p.w + q.w * p.y + q.z * p.x - q.x * p.z,
    q.z * p.w + q.w * p.z + q.x * p.y - q.y * p.x,
    q.w * p.w - q.x * p.x - q.y * p.y - q.z * p.z ⟩

/-- Modelled from the spec: rotating a vector by a quaternion
(`v.apply_quaternion(q)`), the sandwich product written out componentwise as
in the three.js-style library. -/
def Vector3.apply_quaternion (v : Vector3) (q : Quaternion) : Vector3 :=
  let ix :=   q.w * v.x + q.y * v.z - q.z * v.y
  let iy :=   q.w * v.y + q.z * v.x - q.x * v.z
  let iz :=   q.w * v.z + q.x * v.y - q.y * v.x
  let iw := - q.x * v.x - q.y * v.y - q.z * v.z
  ⟨ ix * q.w + iw * (- q.x) + iy * (- q.z) - iz * (- q.y),
    iy * q.w + iw * (- q.y) + iz * (- q.x) - ix * (- q.z),
    iz * q.w + iw * (- q.z) + ix * (- q.y) - iy * (- q.x) ⟩

/-- Modelled from the spec: euler angles, accepted as rotation input and
always converted to a quaternion on write; opaque here beyond that role. -/
structure Euler where
  x : ℚ
  y : ℚ
  z : ℚ
deriving DecidableEq

/-- Modelled from the spec: the math library's 4x4 matrix value type. -/
structure Matrix4 where
  elements : Matrix (Fin 4) (Fin 4) ℚ

/-- Modelled from the spec: `Matrix4::new()` is the identity matrix (a node
is created with identity matrices). -/
def Matrix4.new : Matrix4 := ⟨1⟩

/-- Modelled from the spec: 4x4 matrix product; `m.multiply_matrices(a, b)`
stores `a * b` into `m`, so the functional result is the product `a * b`. -/
def Matrix4.multiply_matrices (a b : Matrix4) : Matrix4 := ⟨a.elements * b.elements⟩

/-- Modelled from the spec: the 4x4 determinant. -/
def Matrix4.determinant (m : Matrix4) : ℚ := m.elements.det

/-- Modelled from the spec: `m.get_inverse(src, throw_on_degenerate)`.  On a
nonsingular input it produces the true inverse (adjugate over determinant);
on a singular input, the no-throw mode returns the documented degenerate
value — the identity matrix — instead of failing, while the throwing mode
fails (modelled as `none`). -/
def Matrix4.get_inverse (m : Matrix4) (throwOnDegenerate : Bool) : Option Matrix4 :=
  if m.determinant = 0 then
    if throwOnDegenerate then none else some Matrix4.new
  else
    some ⟨m.determinant⁻¹ • m.elements.adjugate⟩

/-- Modelled from the spec: transforming a point by a 4x4 matrix
(`v.apply_matrix4(m)`), with the perspective divide of the three.js-style
library; over ℚ a division by a zero weight follows the field convention. -/
def Vector3.apply_matrix4 (v : Vector3) (m : Matrix4) : Vector3 :=
  let e := m.elements
  let w := e 3 0 * v.x + e 3 1 * v.y + e 3 2 * v.z + e 3 3
  ⟨ (e 0 0 * v.x + e 0 1 * v.y + e 0 2 * v.z + e 0 3) / w,
    (e 1 0 * v.x + e 1 1 * v.y + e 1 2 * v.z + e 1 3) / w,
    (e 2 0 * v.x + e 2 1 * v.y + e 2 2 * v.z + e 2 3) / w ⟩

/-- Modelled from the spec: the math library's 3x3 matrix value type (only
stored by the node, as `normal_matrix`). -/
structure Matrix3 where
  elements : Matrix (Fin 3) (Fin 3) ℚ

/-- Modelled from the spec: `Matrix3::new()` is the identity matrix. -/
def Matrix3.new : Matrix3 := ⟨1⟩

/-- Modelled from the spec: a layer bitmask, opaque to this component beyond
storage; `Layers::new()` enables the default layer. -/
structure Layers where
  mask : ℕ
deriving DecidableEq

/-- Modelled from the spec: the default layer set of a fresh node. -/
def Layers.new : Layers := ⟨1⟩

/-- Modelled from the spec: the math-library kernels consumed by the node
whose formulas the specification does not fix (they need trigonometric or
square-root computation): quaternion construction from axis-angle, euler
angles and a rotation matrix; TRS decomposition of a 4x4 matrix; and look-at
matrix construction (`Matrix4::look_at(eye, target, up)`).  The node-level
theorems hold for every such kernel, so they are parameters. -/
structure MathExt where
  setFromAxisAngle : Vector3 → ℚ → Quaternion
  setFromEuler : Euler → Quaternion
  setFromRotationMatrix : Matrix4 → Quaternion
  decompose : Matrix4 → Vector3 × Quaternion × Vector3
  lookAtM : Vector3 → Vector3 → Vector3 → Matrix4

/-- The process-wide default up vector (`DEFAULT_UP`), `(0, 1, 0)`. -/
def DEFAULT_UP : Vector3 := ⟨0, 1, 0⟩

/-- The process-wide default for `matrix_auto_update`
(`DEFAULT_MATRIX_AUTO_UPDATE`), `true`. -/
def DEFAULT_MATRIX_AUTO_UPDATE : Bool := true

/-- The spatial node of `object3d.rs`, one field per Rust struct field.

The Rust `children` holds `Rc<RefCell<...>>` handles and `parent` an optional
`Weak` handle; nodes live in a heap and `PartialEq` compares the immutable
`uuid` assigned by `Uuid::new_v4()` at construction, which is distinct for
every constructed node.  The embedding therefore keys the heap (`World`,
below) by uuid: a strong or weak handle is modelled by the target node's key,
`children` is the list of child keys, `parent` the optional parent key, and
uuid comparison is key comparison.  The `uuid` field itself (the key) and the
borrow bookkeeping of `Rc`/`RefCell` are not repeated inside the record. -/
structure Object3D where
  name : String
  children : List ℕ
  up : Vector3
  position : Vector3
  quaternion : Quaternion
  scale : Vector3
  matrix_auto_update : Bool
  matrix_world_needs_update : Bool
  model_view_matrix : Matrix4
  normal_matrix : Matrix3
  matrix : Matrix4
  matrix_world : Matrix4
  layers : Layers
  visible : Bool
  cast_shadow : Bool
  receive_shadow : Bool
  frustum_culled : Bool
  render_order : ℕ
  parent : Option ℕ

/-- `Object3D::new()`: identity transform, default flags, no parent or
children. -/
def Object3D.new : Object3D where
  name := ""
  children := []
  up := DEFAULT_UP
  position := Vector3.new
  quaternion := Quaternion.new
  scale := ⟨1, 1, 1⟩
  matrix_auto_update := DEFAULT_MATRIX_AUTO_UPDATE
  matrix_world_needs_update := false
  model_view_matrix := Matrix4.new
  normal_matrix := Matrix3.new
  matrix := Matrix4.new
  matrix_world := Matrix4.new
  layers := Layers.new
  visible := true
  cast_shadow := false
  receive_shadow := false
  frustum_culled := true
  render_order := 0
  parent := none

/-- `Object3D::apply_matrix`: `self.matrix = matrix * self.matrix`, then the
new matrix is decomposed and `position`, `quaternion`, `scale` overwritten
with the decomposition (the library's `decompose` writes all three in full;
their prior values, copied into temporaries in the Rust, are overwritten). -/
def Object3D.apply_matrix (E : MathExt) (self : Object3D) (matrix : Matrix4) : Object3D :=
  let m := self.matrix
  let newMatrix := Matrix4.multiply_matrices matrix m
  let pqs := E.decompose newMatrix
  { self with matrix := newMatrix, position := pqs.1, quaternion := pqs.2.1, scale := pqs.2.2 }

/-- `Object3D::set_rotation_from_axis_angle`. -/
def Object3D.set_rotation_from_axis_angle (E : MathExt) (self : Object3D)
    (axis : Vector3) (angle : ℚ) : Object3D :=
  { self with quaternion := E.setFromAxisAngle axis angle }

/-- `Object3D::set_rotation_from_euler`. -/
def Object3D.set_rotation_from_euler (E : MathExt) (self : Object3D)
    (euler : Euler) : Object3D :=
  { self with quaternion := E.setFromEuler euler }

/-- `Object3D::set_rotation_from_matrix`. -/
def Object3D.set_rotation_from_matrix (E : MathExt) (self : Object3D)
    (m : Matrix4) : Object3D :=
  { self with quaternion := E.setFromRotationMatrix m }

/-- `Object3D::set_rotation_from_quaternion`: `self.quaternion.copy(q)`. -/
def Object3D.set_rotation_from_quaternion (self : Object3D)
    (q : Quaternion) : Object3D :=
  { self with quaternion := self.quaternion.copy q }

/-- `Object3D::rotate_on_axis`: a fresh quaternion `q1` is fully overwritten
by `set_from_axis_angle(axis, angle)`, then `self.quaternion.multiply(&q1)`
composes it onto the local frame. -/
def Object3D.rotate_on_axis (E : MathExt) (self : Object3D)
    (axis : Vector3) (angle : ℚ) : Object3D :=
  let q1 := E.setFromAxisAngle axis angle
  { self with quaternion := self.quaternion.multiply q1 }

/-- `Object3D::rotate_x`. -/
def Object3D.rotate_x (E : MathExt) (self : Object3D) (angle : ℚ) : Object3D :=
  let v1 : Vector3 := ⟨1, 0, 0⟩
  self.rotate_on_axis E v1 angle

/-- `Object3D::rotate_y`. -/
def Object3D.rotate_y (E : MathExt) (self : Object3D) (angle : ℚ) : Object3D :=
  let v1 : Vector3 := ⟨0, 1, 0⟩
  self.rotate_on_axis E v1 angle

/-- `Object3D::rotate_z`. -/
def Object3D.rotate_z (E : MathExt) (self : Object3D) (angle : ℚ) : Object3D :=
  let v1 : Vector3 := ⟨0, 0, 1⟩
  self.rotate_on_axis E v1 angle

/-- `Object3D::translate_on_axis`: copy the axis, rotate it by the current
orientation, scale by the distance, add onto `position`. -/
def Object3D.translate_on_axis (self : Object3D) (axis : Vector3) (distance : ℚ) : Object3D :=
  let v1 := Vector3.new.copy axis
  let v1 := v1.apply_quaternion self.quaternion
  let v1 := v1.multiply_scalar distance
  { self with position := self.position.add v1 }

/-- `Object3D::translate_x`. -/
def Object3D.translate_x (self : Object3D) (distance : ℚ) : Object3D :=
  let v1 : Vector3 := ⟨1, 0, 0⟩
  self.translate_on_axis v1 distance

/-- `Object3D::translate_y`. -/
def Object3D.translate_y (self : Object3D) (distance : ℚ) : Object3D :=
  let v1 : Vector3 := ⟨0, 1, 0⟩
  self.translate_on_axis v1 distance

/-- `Object3D::translate_z`. -/
def Object3D.translate_z (self : Object3D) (distance : ℚ) : Object3D :=
  let v1 : Vector3 := ⟨0, 0, 1⟩
  self.translate_on_axis v1 distance

/-- `Object3D::local_to_world`: apply the cached world matrix. -/
def Object3D.local_to_world (self : Object3D) (vector : Vector3) : Vector3 :=
  vector.apply_matrix4 self.matrix_world

/-- `Object3D::world_to_local`: `m1.get_inverse(&self.matrix_world, false)`
(no-throw mode, so the result is always produced; on a singular world matrix
`m1` is left at the degenerate identity), then apply `m1`. -/
def Object3D.world_to_local (self : Object3D) (vector : Vector3) : Vector3 :=
  let m1 := (self.matrix_world.get_inverse false).getD Matrix4.new
  vector.apply_matrix4 m1

/-- `Object3D::look_at`: build the look-at matrix from the target, the node's
`position` and its `up`, and overwrite `quaternion` from it. -/
def Object3D.look_at (E : MathExt) (self : Object3D) (vector : Vector3) : Object3D :=
  let m1 := E.lookAtM vector self.position self.up
  { self with quaternion := E.setFromRotationMatrix m1 }

/-- The heap of nodes, keyed by uuid (see `Object3D`): every handle in the
Rust program is modelled by its target's key. -/
def World := ℕ → Object3D

/-- Write one node of the heap. -/
def updateW (w : World) (i : ℕ) (n : Object3D) : World :=
  fun j => if j = i then n else w j

/-- The heap of fresh construction: every node is `Object3D::new()` (each
with its own distinct uuid, i.e. its key). -/
def World.initial : World := fun _ => Object3D.new

/-- `Object3D::add(parent, child)` (a static two-handle operation):
`child.parent = Some(downgrade(parent))`, then
`parent.children.push(child.clone())`. -/
def World.add (w : World) (parent child : ℕ) : World :=
  let w1 := updateW w child { w child with parent := some parent }
  updateW w1 parent { w1 parent with children := (w1 parent).children ++ [child] }

/-- The search loop of `Object3D::remove`: the index of the first child whose
node compares equal (uuid equality, i.e. key equality) to `object`. -/
def findChild : List ℕ → ℕ → Option ℕ
  | [], _ => none
  | o :: rest, object =>
      if o = object then some 0 else (findChild rest object).map (fun i => i + 1)

/-- `Vec::swap_remove(i)`: the element at `i` is removed and replaced by the
last element (a no-op on the empty vector cannot arise: the source only calls
it on a found index). -/
def swapRemove (l : List ℕ) (i : ℕ) : List ℕ :=
  match l.getLast? with
  | none => l
  | some a => (l.set i a).dropLast

/-- `Object3D::remove(&mut self, object) -> bool` on the node at key `s`:
scan `self.children` for `object`; if found, `swap_remove` it, clear
`object.parent`, and return `true`; otherwise return `false` with no
mutation. -/
def World.remove (w : World) (s object : ℕ) : World × Bool :=
  match findChild (w s).children object with
  | some i =>
      let w1 := updateW w s { w s with children := swapRemove (w s).children i }
      (updateW w1 object { w1 object with parent := none }, true)
  | none => (w, false)

/-- The heaps reachable from fresh construction by the public mutating
operations of `Object3D`: the per-node transform mutators applied to any node
of the heap, and the hierarchy operations `add` and `remove`. -/
inductive Reachable : World → Prop where
  | init : Reachable World.initial
  | apply_matrix {w : World} (E : MathExt) (i : ℕ) (m : Matrix4) :
      Reachable w → Reachable (updateW w i ((w i).apply_matrix E m))
  | set_rotation_from_axis_angle {w : World} (E : MathExt) (i : ℕ) (axis : Vector3) (angle : ℚ) :
      Reachable w → Reachable (updateW w i ((w i).set_rotation_from_axis_angle E axis angle))
  | set_rotation_from_euler {w : World} (E : MathExt) (i : ℕ) (e : Euler) :
      Reachable w → Reachable (updateW w i ((w i).set_rotation_from_euler E e))
  | set_rotation_from_matrix {w : World} (E : MathExt) (i : ℕ) (m : Matrix4) :
      Reachable w → Reachable (updateW w i ((w i).set_rotation_from_matrix E m))
  | set_rotation_from_quaternion {w : World} (i : ℕ) (q : Quaternion) :
      Reachable w → Reachable (updateW w i ((w i).set_rotation_from_quaternion q))
  | rotate_on_axis {w : World} (E : MathExt) (i : ℕ) (axis : Vector3) (angle : ℚ) :
      Reachable w → Reachable (updateW w i ((w i).rotate_on_axis E axis angle))
  | rotate_x {w : World} (E : MathExt) (i : ℕ) (angle : ℚ) :
      Reachable w → Reachable (updateW w i ((w i).rotate_x E angle))
  | rotate_y {w : World} (E : MathExt) (i : ℕ) (angle : ℚ) :
      Reachable w → Reachable (updateW w i ((w i).rotate_y E angle))
  | rotate_z {w : World} (E : MathExt) (i : ℕ) (angle : ℚ) :
      Reachable w → Reachable (updateW w i ((w i).rotate_z E angle))
  | translate_on_axis {w : World} (i : ℕ) (axis : Vector3) (distance : ℚ) :
      Reachable w → Reachable (updateW w i ((w i).translate_on_axis axis distance))
  | translate_x {w : World} (i : ℕ) (distance : ℚ) :
      Reachable w → Reachable (updateW w i ((w i).translate_x distance))
  | translate_y {w : World} (i : ℕ) (distance : ℚ) :
      Reachable w → Reachable (updateW w i ((w i).translate_y distance))
  | translate_z {w : World} (i : ℕ) (distance : ℚ) :
      Reachable w → Reachable (updateW w i ((w i).translate_z distance))
  | look_at {w : World} (E : MathExt) (i : ℕ) (v : Vector3) :
      Reachable w → Reachable (updateW w i ((w i).look_at E v))
  | add {w : World} (p c : ℕ) :
      Reachable w → Reachable (World.add w p c)
  | remove {w : World} (s c : ℕ) :
      Reachable w → Reachable (World.remove w s c).1

/-- Invariant I1 of the spec: a present `parent` back-reference always points
to a node whose `children` currently lists this node. -/
def I1 (w : World) : Prop :=
  ∀ n p, (w n).parent = some p → n ∈ (w p).children

lemma findChild_eq_none {l : List ℕ} {a : ℕ} : findChild l a = none ↔ a ∉ l := by
  induction l with
  | nil => simp [findChild]
  | cons o rest ih =>
      by_cases h : o = a
      · subst h
        simp [findChild]
      · simp only [findChild, if_neg h, Option.map_eq_none', ih, List.mem_cons]
        constructor
        · intro hr hmem
          rcases hmem with he | hm
          · exact h he.symm
          · exact hr hm
        · intro hmem hr
          exact hmem (Or.inr hr)

lemma findChild_some : ∀ {l : List ℕ} {a i : ℕ}, findChild l a = some i →
    ∃ h : i < l.length, l.get ⟨i, h⟩ = a := by
  intro l
  induction l with
  | nil => intro a i h; simp [findChild] at h
  | cons o rest ih =>
      intro a i h
      simp only [findChild] at h
      by_cases ho : o = a
      · rw [if_pos ho] at h
        cases h
        exact ⟨Nat.succ_pos _, ho⟩
      · rw [if_neg ho] at h
        cases hf : findChild rest a with
        | none => rw [hf] at h; simp at h
        | some j =>
            rw [hf] at h
            simp only [Option.map_some'] at h
            cases h
            obtain ⟨hj, hg⟩ := ih hf
            exact ⟨Nat.succ_lt_succ hj, hg⟩

lemma swapRemove_concat (l : List ℕ) (a : ℕ) (i : ℕ) :
    swapRemove (l ++ [a]) i = ((l ++ [a]).set i a).dropLast := by
  simp [swapRemove, List.getLast?_concat]

lemma swapRemove_perm (l : List ℕ) (i : ℕ) (h : i < l.length) :
    (l.get ⟨i, h⟩ :: swapRemove l i).Perm l := by
  induction l using List.reverseRecOn with
  | nil => simp at h
  | append_singleton m a _ =>
      rw [swapRemove_concat]
      rcases Nat.lt_or_ge i m.length with hi | hi
      · rw [List.set_append, if_pos hi, List.dropLast_concat]
        have hg : (m ++ [a]).get ⟨i, h⟩ = m.get ⟨i, hi⟩ := List.get_append i hi
        rw [hg, List.set_eq_take_cons_drop a hi]
        have hsplit : m ++ [a]
            = List.take i m ++ (m.get ⟨i, hi⟩ :: (List.drop (i + 1) m ++ [a])) := by
          conv_lhs => rw [← List.take_append_drop i m, ← List.get_cons_drop m ⟨i, hi⟩]
          simp only [List.append_assoc, List.cons_append]
        rw [hsplit]
        refine List.Perm.trans ?_ List.perm_middle.symm
        exact List.Perm.cons _
          (List.Perm.append_left _ (List.perm_append_singleton a _).symm)
      · have hie : i = m.length := by
          have := h
          simp only [List.length_append, List.length_singleton] at this
          omega
        subst hie
        rw [List.set_append, if_neg (lt_irrefl _), Nat.sub_self, List.set_cons_zero,
          List.dropLast_concat]
        have hg : (m ++ [a]).get ⟨m.length, h⟩ = a := List.getElem_concat_length m a _ rfl h
        rw [hg]
        exact (List.perm_append_singleton a m).symm

lemma count_swapRemove_self (l : List ℕ) (i : ℕ) (h : i < l.length) (c : ℕ)
    (hc : l.get ⟨i, h⟩ = c) :
    List.count c (swapRemove l i) + 1 = List.count c l := by
  have hp := (swapRemove_perm l i h).count_eq c
  rw [hc, List.count_cons_self] at hp
  exact hp

lemma count_swapRemove_other (l : List ℕ) (i : ℕ) (h : i < l.length) (x : ℕ)
    (hx : x ≠ l.get ⟨i, h⟩) :
    List.count x (swapRemove l i) = List.count x l := by
  have hp := (swapRemove_perm l i h).count_eq x
  rwa [List.count_cons_of_ne hx] at hp

lemma mem_swapRemove_of_ne {l : List ℕ} {i : ℕ} (h : i < l.length) {n : ℕ}
    (hn : n ∈ l) (hne : n ≠ l.get ⟨i, h⟩) : n ∈ swapRemove l i := by
  have hm : n ∈ l.get ⟨i, h⟩ :: swapRemove l i := ((swapRemove_perm l i h).mem_iff).mpr hn
  rcases List.mem_cons.mp hm with he | hm2
  · exact absurd he hne
  · exact hm2

lemma updateW_same (w : World) (i : ℕ) (n : Object3D) : updateW w i n i = n := by
  simp [updateW]

lemma updateW_other (w : World) (i j : ℕ) (n : Object3D) (h : j ≠ i) :
    updateW w i n j = w j := by
  simp [updateW, h]

lemma add_apply_child (w : World) (p c : ℕ) :
    ((World.add w p c) c).parent = some p := by
  by_cases h : c = p
  · subst h
    simp [World.add, updateW]
  · simp [World.add, updateW, h]

lemma add_children (w : World) (p c : ℕ) :
    ((World.add w p c) p).children = (w p).children ++ [c] := by
  by_cases h : p = c
  · subst h
    simp [World.add, updateW]
  · simp [World.add, updateW, h]

lemma add_parent_other (w : World) (p c j : ℕ) (hc : j ≠ c) :
    ((World.add w p c) j).parent = (w j).parent := by
  by_cases hp : j = p
  · subst hp
    simp [World.add, updateW, hc]
  · simp [World.add, updateW, hp, hc]

lemma add_children_other (w : World) (p c q : ℕ) (hq : q ≠ p) :
    ((World.add w p c) q).children = (w q).children := by
  by_cases hc : q = c
  · subst hc
    simp [World.add, updateW, hq]
  · simp [World.add, updateW, hq, hc]

lemma I1_updateW_of_hier_eq {w : World} {i : ℕ} {n : Object3D}
    (hp : n.parent = (w i).parent) (hc : n.children = (w i).children)
    (h : I1 w) : I1 (updateW w i n) := by
  intro a q haq
  have haq2 : (w a).parent = some q := by
    by_cases ha : a = i
    · subst ha
      rw [updateW_same] at haq
      rw [← hp]
      exact haq
    · rwa [updateW_other _ _ _ _ ha] at haq
  have hmem := h a q haq2
  by_cases hqi : q = i
  · subst hqi
    rw [updateW_same, hc]
    exact hmem
  · rw [updateW_other _ _ _ _ hqi]
    exact hmem

lemma I1_add {w : World} (p c : ℕ) (h : I1 w) : I1 (World.add w p c) := by
  intro n q hq
  by_cases hnc : n = c
  · subst hnc
    rw [add_apply_child w p n] at hq
    injection hq with hpq
    subst hpq
    rw [add_children]
    exact List.mem_append_right _ (List.mem_singleton_self n)
  · rw [add_parent_other w p c n hnc] at hq
    have hmem := h n q hq
    by_cases hqp : q = p
    · subst hqp
      rw [add_children]
      exact List.mem_append_left _ hmem
    · rw [add_children_other w p c q hqp]
      exact hmem

lemma I1_remove {w : World} (s c : ℕ) (h : I1 w) : I1 (World.remove w s c).1 := by
  cases hf : findChild (w s).children c with
  | none =>
      simp only [World.remove, hf]
      exact h
  | some i =>
      obtain ⟨hlt, hget⟩ := findChild_some hf
      simp only [World.remove, hf]
      intro n q hq
      by_cases hnc : n = c
      · subst hnc
        rw [updateW_same] at hq
        exact absurd hq (by simp)
      · rw [updateW_other _ _ _ _ hnc] at hq
        have hq2 : (w n).parent = some q := by
          by_cases hns : n = s
          · subst hns
            rwa [updateW_same] at hq
          · rwa [updateW_other _ _ _ _ hns] at hq
        have hmem := h n q hq2
        by_cases hqs : q = s
        · subst hqs
          have hgoal : n ∈ swapRemove (w q).children i :=
            mem_swapRemove_of_ne hlt hmem (by rw [hget]; exact hnc)
          by_cases hqc : q = c
          · subst hqc
            rw [updateW_same]
            rw [updateW_same]
            exact hgoal
          · rw [updateW_other _ _ _ _ hqc, updateW_same]
            exact hgoal
        · by_cases hqc : q = c
          · subst hqc
            rw [updateW_same, updateW_other _ _ _ _ hqs]
            exact hmem
          · rw [updateW_other _ _ _ _ hqc, updateW_other _ _ _ _ hqs]
            exact hmem

lemma clean_updateW {w : World} {i : ℕ} {n : Object3D}
    (hn : n.matrix_world_needs_update = false)
    (h : ∀ j, (w j).matrix_world_needs_update = false) :
    ∀ j, ((updateW w i n) j).matrix_world_needs_update = false := by
  intro j
  by_cases hj : j = i
  · subst hj
    rw [updateW_same]
    exact hn
  · rw [updateW_other _ _ _ _ hj]
    exact h j

lemma clean_add {w : World} (p c : ℕ)
    (h : ∀ j, (w j).matrix_world_needs_update = false) :
    ∀ j, ((World.add w p c) j).matrix_world_needs_update = false := by
  have h1 : ∀ j, ((updateW w c { w c with parent := some p }) j).matrix_world_needs_update
      = false := clean_updateW (h c) h
  exact clean_updateW (h1 p) h1

lemma clean_remove {w : World} (s c : ℕ)
    (h : ∀ j, (w j).matrix_world_needs_update = false) :
    ∀ j, (((World.remove w s c).1) j).matrix_world_needs_update = false := by
  cases hf : findChild (w s).children c with
  | none =>
      simp only [World.remove, hf]
      exact h
  | some i =>
      simp only [World.remove, hf]
      have h1 : ∀ j, ((updateW w s { w s with children := swapRemove (w s).children i })
          j).matrix_world_needs_update = false :=
        clean_updateW (h s) h
      exact clean_updateW (h1 c) h1

/-- All fields of `b` agree with `a` except possibly `quaternion` (the
orientation). -/
def AgreeExceptQuaternion (a b : Object3D) : Prop :=
  b.name = a.name ∧ b.children = a.children ∧ b.up = a.up ∧ b.position = a.position ∧
  b.scale = a.scale ∧ b.matrix_auto_update = a.matrix_auto_update ∧
  b.matrix_world_needs_update = a.matrix_world_needs_update ∧
  b.model_view_matrix = a.model_view_matrix ∧ b.normal_matrix = a.normal_matrix ∧
  b.matrix = a.matrix ∧ b.matrix_world = a.matrix_world ∧ b.layers = a.layers ∧
  b.visible = a.visible ∧ b.cast_shadow = a.cast_shadow ∧
  b.receive_shadow = a.receive_shadow ∧ b.frustum_culled = a.frustum_culled ∧
  b.render_order = a.render_order ∧ b.parent = a.parent

/-- All fields of `b` agree with `a` except possibly `position`. -/
def AgreeExceptPosition (a b : Object3D) : Prop :=
  b.name = a.name ∧ b.children = a.children ∧ b.up = a.up ∧ b.quaternion = a.quaternion ∧
  b.scale = a.scale ∧ b.matrix_auto_update = a.matrix_auto_update ∧
  b.matrix_world_needs_update = a.matrix_world_needs_update ∧
  b.model_view_matrix = a.model_view_matrix ∧ b.normal_matrix = a.normal_matrix ∧
  b.matrix = a.matrix ∧ b.matrix_world = a.matrix_world ∧ b.layers = a.layers ∧
  b.visible = a.visible ∧ b.cast_shadow = a.cast_shadow ∧
  b.receive_shadow = a.receive_shadow ∧ b.frustum_culled = a.frustum_culled ∧
  b.render_order = a.render_order ∧ b.parent = a.parent

/-- All fields of `b` agree with `a` except possibly the TRS fields
(`position`, `quaternion`, `scale`) and the local `matrix`. -/
def AgreeExceptTRSMatrix (a b : Object3D) : Prop :=
  b.name = a.name ∧ b.children = a.children ∧ b.up = a.up ∧
  b.matrix_auto_update = a.matrix_auto_update ∧
  b.matrix_world_needs_update = a.matrix_world_needs_update ∧
  b.model_view_matrix = a.model_view_matrix ∧ b.normal_matrix = a.normal_matrix ∧
  b.matrix_world = a.matrix_world ∧ b.layers = a.layers ∧
  b.visible = a.visible ∧ b.cast_shadow = a.cast_shadow ∧
  b.receive_shadow = a.receive_shadow ∧ b.frustum_culled = a.frustum_culled ∧
  b.render_order = a.render_order ∧ b.parent = a.parent

lemma agreeExceptQuaternion_update (a : Object3D) (q : Quaternion) :
    AgreeExceptQuaternion a { a with quaternion := q } :=
  ⟨rfl, rfl, rfl, rfl, rfl, rfl, rfl, rfl, rfl, rfl, rfl, rfl, rfl, rfl, rfl, rfl, rfl, rfl⟩

lemma agreeExceptPosition_update (a : Object3D) (p : Vector3) :
    AgreeExceptPosition a { a with position := p } :=
  ⟨rfl, rfl, rfl, rfl, rfl, rfl, rfl, rfl, rfl, rfl, rfl, rfl, rfl, rfl, rfl, rfl, rfl, rfl⟩

lemma agreeExceptTRSMatrix_update (a : Object3D) (m : Matrix4) (p : Vector3)
    (q : Quaternion) (s : Vector3) :
    AgreeExceptTRSMatrix a { a with matrix := m, position := p, quaternion := q, scale := s } :=
  ⟨rfl, rfl, rfl, rfl, rfl, rfl, rfl, rfl, rfl, rfl, rfl, rfl, rfl, rfl, rfl⟩

/-- C1: for every heap reachable from fresh construction via the mutating
operations, a node whose `parent` reference is present is listed in that
parent's `children` (invariant I1), and each of `add` and `remove` preserves
this back-reference/forward-reference synchronization. -/
theorem C1_parent_backref_sync :
    (∀ w p c, I1 w → I1 (World.add w p c)) ∧
    (∀ w s c, I1 w → I1 (World.remove w s c).1) ∧
    (∀ w, Reachable w → I1 w) := by
  refine ⟨fun w p c h => I1_add p c h, fun w s c h => I1_remove s c h, ?_⟩
  intro w hw
  induction hw with
  | init => intro n p h; exact Option.noConfusion h
  | apply_matrix E i m hw ih => exact I1_updateW_of_hier_eq rfl rfl ih
  | set_rotation_from_axis_angle E i axis angle hw ih => exact I1_updateW_of_hier_eq rfl rfl ih
  | set_rotation_from_euler E i e hw ih => exact I1_updateW_of_hier_eq rfl rfl ih
  | set_rotation_from_matrix E i m hw ih => exact I1_updateW_of_hier_eq rfl rfl ih
  | set_rotation_from_quaternion i q hw ih => exact I1_updateW_of_hier_eq rfl rfl ih
  | rotate_on_axis E i axis angle hw ih => exact I1_updateW_of_hier_eq rfl rfl ih
  | rotate_x E i angle hw ih => exact I1_updateW_of_hier_eq rfl rfl ih
  | rotate_y E i angle hw ih => exact I1_updateW_of_hier_eq rfl rfl ih
  | rotate_z E i angle hw ih => exact I1_updateW_of_hier_eq rfl rfl ih
  | translate_on_axis i axis distance hw ih => exact I1_updateW_of_hier_eq rfl rfl ih
  | translate_x i distance hw ih => exact I1_updateW_of_hier_eq rfl rfl ih
  | translate_y i distance hw ih => exact I1_updateW_of_hier_eq rfl rfl ih
  | translate_z i distance hw ih => exact I1_updateW_of_hier_eq rfl rfl ih
  | look_at E i v hw ih => exact I1_updateW_of_hier_eq rfl rfl ih
  | add p c hw ih => exact I1_add p c ih
  | remove s c hw ih => exact I1_remove s c ih

/-- Witness for C1 at concrete inputs: the invariant transfer applied to the
fresh heap, and the reachable heap after `add(node 0, node 1)`, where node 1
is indeed listed among node 0's children. -/
theorem C1_parent_backref_sync_witness :
    I1 (World.add World.initial 0 1) ∧ I1 (World.remove World.initial 0 1).1 ∧
    1 ∈ ((World.add World.initial 0 1) 0).children := by
  have h0 : I1 World.initial := fun n p h => Option.noConfusion h
  exact ⟨C1_parent_backref_sync.1 World.initial 0 1 h0,
    C1_parent_backref_sync.2.1 World.initial 0 1 h0,
    C1_parent_backref_sync.2.2 (World.add World.initial 0 1)
      (Reachable.add 0 1 Reachable.init) 1 0 rfl⟩

/-- C2: `add(p, c)` followed by `p.remove(c)` reports success, restores `c`'s
parent to none, removes exactly one occurrence of `c` from `p.children`, and
keeps every other child of `p` present with unchanged multiplicity. -/
theorem C2_add_then_remove : ∀ w p c,
    (World.remove (World.add w p c) p c).2 = true ∧
    ((World.remove (World.add w p c) p c).1 c).parent = none ∧
    List.count c (((World.remove (World.add w p c) p c).1 p).children) + 1
      = List.count c (((World.add w p c) p).children) ∧
    ∀ x, x ≠ c → List.count x (((World.remove (World.add w p c) p c).1 p).children)
      = List.count x (((World.add w p c) p).children) := by
  intro w p c
  have hmem : c ∈ ((World.add w p c) p).children := by
    rw [add_children]
    exact List.mem_append_right _ (List.mem_singleton_self c)
  cases hf : findChild ((World.add w p c) p).children c with
  | none => exact absurd (findChild_eq_none.mp hf) (not_not_intro hmem)
  | some i =>
      obtain ⟨hlt, hget⟩ := findChild_some hf
      have hchildren : ((World.remove (World.add w p c) p c).1 p).children
          = swapRemove ((World.add w p c) p).children i := by
        simp only [World.remove, hf]
        by_cases hpc : p = c
        · subst hpc
          rw [updateW_same, updateW_same]
        · rw [updateW_other _ _ _ _ hpc, updateW_same]
      refine ⟨?_, ?_, ?_, ?_⟩
      · simp only [World.remove, hf]
      · simp only [World.remove, hf]
        rw [updateW_same]
      · rw [hchildren]
        exact count_swapRemove_self _ _ hlt c hget
      · intro x hx
        rw [hchildren]
        exact count_swapRemove_other _ _ hlt x (by rw [hget]; exact hx)

/-- C3: `add(parent, child)` sets the child's parent reference to `parent`
and unconditionally appends the child to `parent.children`, so two identical
calls leave the child counted twice among the parent's children. -/
theorem C3_add_appends_unconditionally : ∀ w p c,
    ((World.add w p c) c).parent = some p ∧
    ((World.add w p c) p).children = (w p).children ++ [c] ∧
    List.count c (((World.add (World.add w p c) p c) p).children)
      = List.count c ((w p).children) + 2 := by
  intro w p c
  refine ⟨add_apply_child w p c, add_children w p c, ?_⟩
  rw [add_children, add_children, List.count_append, List.count_append]
  simp [List.count_singleton]

/-- C4: when no child of node `n` is identity-equal to `c`, `n.remove(c)`
returns `false` and the whole heap — in particular both `n` and `c` — is
unchanged. -/
theorem C4_remove_miss : ∀ w n c, c ∉ (w n).children →
    (World.remove w n c).2 = false ∧ (World.remove w n c).1 = w := by
  intro w n c hc
  have hf : findChild (w n).children c = none := findChild_eq_none.mpr hc
  simp [World.remove, hf]

/-- Witness for C4: removing node 1 from node 0 in the fresh heap (node 0
has no children) reports `false` and changes nothing. -/
theorem C4_remove_miss_witness :
    1 ∉ (World.initial 0).children ∧
    (World.remove World.initial 0 1).2 = false ∧
    (World.remove World.initial 0 1).1 = World.initial := by
  have h : (1 : ℕ) ∉ (World.initial 0).children := List.not_mem_nil 1
  exact ⟨h, C4_remove_miss World.initial 0 1 h⟩

/-- C5: `apply_matrix(m)` replaces the local matrix by `m * L` (the argument
left-multiplied onto the old local matrix `L`) and then overwrites
`position`, `quaternion` and `scale` with the decomposition of that new
matrix — so afterward the TRS fields are exactly the decomposition of the
stored local matrix — while no other field changes. -/
theorem C5_apply_matrix_decomposes : ∀ (E : MathExt) (self : Object3D) (m : Matrix4),
    (self.apply_matrix E m).matrix = Matrix4.multiply_matrices m self.matrix ∧
    ((self.apply_matrix E m).matrix).elements = m.elements * self.matrix.elements ∧
    ((self.apply_matrix E m).position, (self.apply_matrix E m).quaternion,
      (self.apply_matrix E m).scale) = E.decompose ((self.apply_matrix E m).matrix) ∧
    AgreeExceptTRSMatrix self (self.apply_matrix E m) := by
  intro E self m
  exact ⟨rfl, rfl, rfl, agreeExceptTRSMatrix_update self _ _ _ _⟩

/-- C6: `rotate_on_axis(axis, angle)` composes the axis-angle rotation onto
the local frame, `orientation = orientation * rotation(axis, angle)`, leaving
every other field unchanged, and `rotate_x/y/z` are exactly `rotate_on_axis`
at the unit basis vectors. -/
theorem C6_rotate_on_axis_composes : ∀ (E : MathExt) (self : Object3D)
    (axis : Vector3) (angle a : ℚ),
    (self.rotate_on_axis E axis angle).quaternion
      = self.quaternion.multiply (E.setFromAxisAngle axis angle) ∧
    AgreeExceptQuaternion self (self.rotate_on_axis E axis angle) ∧
    self.rotate_x E a = self.rotate_on_axis E ⟨1, 0, 0⟩ a ∧
    self.rotate_y E a = self.rotate_on_axis E ⟨0, 1, 0⟩ a ∧
    self.rotate_z E a = self.rotate_on_axis E ⟨0, 0, 1⟩ a := by
  intro E self axis angle a
  exact ⟨rfl, agreeExceptQuaternion_update self _, rfl, rfl, rfl⟩

/-- C7: `translate_on_axis(axis, distance)` adds the axis rotated by the
current orientation, scaled by the distance, onto `position`
(`position += orientation.apply(axis) * distance`), changes no other field,
and `translate_x/y/z` are exactly `translate_on_axis` at the unit basis
vectors. -/
theorem C7_translate_on_axis : ∀ (self : Object3D) (axis : Vector3) (distance d : ℚ),
    (self.translate_on_axis axis distance).position
      = self.position.add ((axis.apply_quaternion self.quaternion).multiply_scalar distance) ∧
    AgreeExceptPosition self (self.translate_on_axis axis distance) ∧
    self.translate_x d = self.translate_on_axis ⟨1, 0, 0⟩ d ∧
    self.translate_y d = self.translate_on_axis ⟨0, 1, 0⟩ d ∧
    self.translate_z d = self.translate_on_axis ⟨0, 0, 1⟩ d := by
  intro self axis distance d
  exact ⟨rfl, agreeExceptPosition_update self _, rfl, rfl, rfl⟩

/-- C8: each `set_rotation_from_*` setter overwrites only the orientation
quaternion (with the conversion of its input) and leaves every other field
unchanged; `look_at` likewise writes only the orientation and in particular
does not alter `position`. -/
theorem C8_rotation_setters_only_touch_orientation : ∀ (E : MathExt) (self : Object3D)
    (axis : Vector3) (angle : ℚ) (e : Euler) (m : Matrix4) (q : Quaternion) (v : Vector3),
    (self.set_rotation_from_axis_angle E axis angle).quaternion
      = E.setFromAxisAngle axis angle ∧
    AgreeExceptQuaternion self (self.set_rotation_from_axis_angle E axis angle) ∧
    (self.set_rotation_from_euler E e).quaternion = E.setFromEuler e ∧
    AgreeExceptQuaternion self (self.set_rotation_from_euler E e) ∧
    (self.set_rotation_from_matrix E m).quaternion = E.setFromRotationMatrix m ∧
    AgreeExceptQuaternion self (self.set_rotation_from_matrix E m) ∧
    (self.set_rotation_from_quaternion q).quaternion = q ∧
    AgreeExceptQuaternion self (self.set_rotation_from_quaternion q) ∧
    AgreeExceptQuaternion self (self.look_at E v) ∧
    (self.look_at E v).position = self.position := by
  intro E self axis angle e m q v
  exact ⟨rfl, agreeExceptQuaternion_update self _, rfl, agreeExceptQuaternion_update self _,
    rfl, agreeExceptQuaternion_update self _, rfl, agreeExceptQuaternion_update self _,
    agreeExceptQuaternion_update self _, rfl⟩

/-- C9: on a node whose world matrix is singular, `world_to_local(v)` does
not fail: the no-throw inverse always produces a result, namely the
documented degenerate inverse (the identity), and `world_to_local` applies
it to `v`. -/
theorem C9_world_to_local_degenerate : ∀ (self : Object3D) (v : Vector3),
    self.matrix_world.determinant = 0 →
    self.matrix_world.get_inverse false = some Matrix4.new ∧
    self.world_to_local v = v.apply_matrix4 Matrix4.new := by
  intro self v h
  have hg : self.matrix_world.get_inverse false = some Matrix4.new := by
    simp [Matrix4.get_inverse, h]
  refine ⟨hg, ?_⟩
  simp [Object3D.world_to_local, hg]

/-- A node with a zero (hence singular) world matrix, for the C9 witness. -/
def singularNode : Object3D := { Object3D.new with matrix_world := ⟨0⟩ }

/-- Witness for C9: on the zero world matrix, `world_to_local` produces the
defined degenerate result. -/
theorem C9_world_to_local_degenerate_witness :
    singularNode.matrix_world.determinant = 0 ∧
    singularNode.matrix_world.get_inverse false = some Matrix4.new ∧
    singularNode.world_to_local ⟨1, 2, 3⟩ = Vector3.apply_matrix4 ⟨1, 2, 3⟩ Matrix4.new := by
  have h : singularNode.matrix_world.determinant = 0 := Matrix.det_zero ⟨(0 : Fin 4)⟩
  obtain ⟨h1, h2⟩ := C9_world_to_local_degenerate singularNode ⟨1, 2, 3⟩ h
  exact ⟨h, h1, h2⟩

/-- C10: the dirty flag `matrix_world_needs_update` is `false` at
construction and is neither set nor cleared by any public operation, so it
stays `false` on every node of every reachable heap. -/
theorem C10_needs_update_never_set :
    ∀ w, Reachable w → ∀ i, (w i).matrix_world_needs_update = false := by
  intro w hw
  induction hw with
  | init => intro i; rfl
  | apply_matrix E i m hw ih => exact clean_updateW (ih i) ih
  | set_rotation_from_axis_angle E i axis angle hw ih => exact clean_updateW (ih i) ih
  | set_rotation_from_euler E i e hw ih => exact clean_updateW (ih i) ih
  | set_rotation_from_matrix E i m hw ih => exact clean_updateW (ih i) ih
  | set_rotation_from_quaternion i q hw ih => exact clean_updateW (ih i) ih
  | rotate_on_axis E i axis angle hw ih => exact clean_updateW (ih i) ih
  | rotate_x E i angle hw ih => exact clean_updateW (ih i) ih
  | rotate_y E i angle hw ih => exact clean_updateW (ih i) ih
  | rotate_z E i angle hw ih => exact clean_updateW (ih i) ih
  | translate_on_axis i axis distance hw ih => exact clean_updateW (ih i) ih
  | translate_x i distance hw ih => exact clean_updateW (ih i) ih
  | translate_y i distance hw ih => exact clean_updateW (ih i) ih
  | translate_z i distance hw ih => exact clean_updateW (ih i) ih
  | look_at E i v hw ih => exact clean_updateW (ih i) ih
  | add p c hw ih => exact clean_add p c ih
  | remove s c hw ih => exact clean_remove s c ih

/-- Witness for C10: after `add(node 0, node 1)` on the fresh heap, the flag
of node 1 is still `false`. -/
theorem C10_needs_update_never_set_witness :
    ((World.add World.initial 0 1) 1).matrix_world_needs_update = false :=
  C10_needs_update_never_set (World.add World.initial 0 1)
    (Reachable.add 0 1 Reachable.init) 1

end ThreeRs
